import Mathlib

/-!
Verification development for the Taxonomy Wizard delimited-name
validation/update engine.

Part 1: the Spec data model and the validation-message pipeline of
src/resources/python_cloud_functions/configurator/jinja_templates/delimited_validator.sql.
The per-dimension regular expressions that the SQL template interpolates
(dim.regex_match_expression, dim.extra_data_regex) are produced by Python
configurator code that is not part of this source tree, so the segmentation
step is modelled from the specification text; the per-dimension CASE logic,
the extra-data message and the final ARRAY_TO_STRING aggregation are
translated from the SQL template itself.
-/

namespace TaxonomyWizard

/-- A Field: a named, reusable taxonomy component.  When
is_freeform_text is false a value is valid iff it belongs to the
field's dictionary (the id column of the backing table). -/
structure Field where
  name : String
  is_freeform_text : Bool
  dictionary : List String
deriving Repr, DecidableEq

/-- A Dimension binds one Field to one 1-based position inside a Spec's
delimited string; end_delimiter is the character sequence terminating the
dimension's segment (commonly an underscore). -/
structure Dimension where
  index : Nat
  end_delimiter : String
  field_spec : Field
deriving Repr, DecidableEq

/-- A Spec: a named ordered collection of Dimensions. -/
structure Spec where
  name : String
  dimensions : List Dimension
deriving Repr, DecidableEq

/-- Find the first occurrence of the pattern p in a character list; returns
the characters before the occurrence and the characters after it.  An empty
pattern is treated as never occurring. -/
def findDelim (p : List Char) : List Char → Option (List Char × List Char)
  | [] => none
  | c :: cs =>
    if p ≠ [] ∧ p.isPrefixOf (c :: cs) then
      some ([], (c :: cs).drop p.length)
    else
      match findDelim p cs with
      | none => none
      | some q => some (c :: q.1, q.2)

/-- Split a string at the first occurrence of the delimiter: the part
before it and the part after it, or none when the delimiter does not
occur. -/
def splitFirst (delim s : String) : Option (String × String) :=
  match findDelim delim.data s.data with
  | none => none
  | some q => some (String.mk q.1, String.mk q.2)

/-- Modelled from the spec: the positional segmentation algorithm of the
Segmentation and Validation Engine (the generated regular expressions that
implement it are produced by configurator Python code absent from this
tree).  Per dimension in order, the segment runs from the end of the
previous dimension's delimiter to the first occurrence of this dimension's
end_delimiter; a non-final dimension whose delimiter is absent is missing,
and every subsequent dimension is then missing as well.  The final
dimension's delimiter is optional: without it the segment is the whole
remainder (missing only when the remainder is empty, as for an empty input
every dimension reports missing).  Whatever follows the final dimension's
delimiter is the extra data. -/
def segmentName : List Dimension → String → List (Option String) × Option String
  | [], s => ([], if s = "" then none else some s)
  | [d], s =>
    match splitFirst d.end_delimiter s with
    | some q => ([some q.1], some q.2)
    | none => ([if s = "" then none else some s], none)
  | d :: d2 :: ds, s =>
    match splitFirst d.end_delimiter s with
    | some q =>
      let rest := segmentName (d2 :: ds) q.2
      (some q.1 :: rest.1, rest.2)
    | none => ((d :: d2 :: ds).map fun _ => none, none)

/-- Embeds the per-dimension CASE expression of the Validation CTE in
delimited_validator.sql: a NULL segment yields the missing-value message;
otherwise, for a non-freeform field, a segment with no matching dictionary
row (T.id IS NULL after the LEFT OUTER JOIN) yields the invalid-value
message; otherwise NULL. -/
def dimValidation (d : Dimension) (seg : Option String) : Option String :=
  match seg with
  | none => some ("Missing value in position " ++ toString d.index ++ ".")
  | some v =>
    if !d.field_spec.is_freeform_text && !(d.field_spec.dictionary.contains v) then
      some ("Invalid value \"" ++ v ++ "\" in position " ++ toString d.index
        ++ " (field \"" ++ d.field_spec.name ++ "\").")
    else
      none

/-- Embeds the d_extra_data_validation column of delimited_validator.sql:
IF(IFNULL(d_extra_data, '') != '', CONCAT(...), NULL). -/
def extraDataValidation (extra : Option String) : Option String :=
  if extra.getD "" ≠ "" then
    some ("Unexpected data at end of string: \"" ++ extra.getD "" ++ "\".")
  else
    none

/-- BigQuery ARRAY_TO_STRING: concatenates the non-NULL elements with the
separator between them, skipping NULL elements. -/
def arrayToString (xs : List (Option String)) (sep : String) : String :=
  String.intercalate sep (xs.filterMap id)

/-- Embeds the final SELECT of delimited_validator.sql: the per-name
validation_message is ARRAY_TO_STRING over the per-dimension validation
columns followed by the extra-data validation column, joined with a
newline. -/
def validate (spec : Spec) (name : String) : String :=
  let seg := segmentName spec.dimensions name
  arrayToString
    (((spec.dimensions.zip seg.1).map fun p => dimValidation p.1 p.2)
      ++ [extraDataValidation seg.2])
    "\n"

/-! Concrete Spec instance for claim C8, reconstructed from the claim and
the expected responses recorded in VALIDATOR_SERVICE_TEST_RESPONSE
(src/unnamed/part_000): field yyyyq at position 1, fandom at position 3
and campaign_type at position 4 are dictionary-controlled; the fields at
positions 2 and 5 are freeform; every delimiter is an underscore. -/

def yyyyqField : Field := ⟨"yyyyq", false, ["2022q2"]⟩

def productField : Field := ⟨"product", true, []⟩

def fandomField : Field := ⟨"fandom", false, ["na"]⟩

def campaignTypeField : Field := ⟨"campaign_type", false, ["musicmarketing", "brandbuilding"]⟩

def audienceField : Field := ⟨"audience", true, []⟩

def usAdvertisersDisplay2022 : Spec :=
  ⟨"US Advertisers Display 2022",
   [⟨1, "_", yyyyqField⟩, ⟨2, "_", productField⟩, ⟨3, "_", fandomField⟩,
    ⟨4, "_", campaignTypeField⟩, ⟨5, "_", audienceField⟩]⟩

/-! Claim-side definitions for C1 and C2, written from the specification's
wording so the theorems can compare them with the source-derived pipeline
above. -/

/-- Builds a name the way claim C1 describes: concatenate, in position
order, one value per dimension, each followed by that dimension's
end_delimiter, with no trailing text after the last dimension. -/
def buildName : List (Dimension × String) → String
  | [] => ""
  | p :: ps => p.2 ++ (p.1.end_delimiter ++ buildName ps)

/-- A value that is valid for a dimension's Field in the sense of claim C1:
any non-empty string for a freeform field, a dictionary member otherwise. -/
def validValue (d : Dimension) (v : String) : Prop :=
  if d.field_spec.is_freeform_text then v ≠ "" else d.field_spec.dictionary.contains v = true

/-- Well-behaved delimiter for one dimension/value pair: the dimension's
end_delimiter is a single character and that character does not occur in
the chosen value (otherwise positional splitting cannot recover the
value). -/
def delimOK (p : Dimension × String) : Prop :=
  p.1.end_delimiter.data.length = 1 ∧ ∀ c ∈ p.1.end_delimiter.data, c ∉ p.2.data

/-- The per-position message exactly as claim C2 words it: the
missing-value message when the segment is missing, the invalid-value
message when the field is not freeform and the segment is not a dictionary
member, otherwise no message (the empty string). -/
def specPositionMessage (d : Dimension) (seg : Option String) : String :=
  match seg with
  | none => "Missing value in position " ++ toString d.index ++ "."
  | some v =>
    if !d.field_spec.is_freeform_text && !(d.field_spec.dictionary.contains v) then
      "Invalid value \"" ++ v ++ "\" in position " ++ toString d.index
        ++ " (field \"" ++ d.field_spec.name ++ "\")."
    else
      ""

/-- The extra-data message exactly as claim C2 words it: reported only for
a non-empty remainder after the last dimension. -/
def specExtraMessage (extra : Option String) : String :=
  match extra with
  | none => ""
  | some e =>
    if e = "" then "" else "Unexpected data at end of string: \"" ++ e ++ "\"."

/-- A counterexample Field for claim C1: a dictionary member that contains
the dimension's delimiter character. -/
def cexField : Field := ⟨"f", false, ["a_b"]⟩

/-- A counterexample Spec for claim C1: one dictionary-controlled dimension
with an underscore delimiter. -/
def cexSpec : Spec := ⟨"cex", [⟨1, "_", cexField⟩]⟩

instance (d : Dimension) (v : String) : Decidable (validValue d v) := by
  unfold validValue
  infer_instance

instance (p : Dimension × String) : Decidable (delimOK p) := by
  unfold delimOK
  infer_instance

/-- A small controlled Field used to witness claim C1. -/
def w1Field : Field := ⟨"g1", false, ["aa"]⟩

/-- A small freeform Field used to witness claim C1. -/
def w2Field : Field := ⟨"g2", true, []⟩

/-- A two-dimension Spec used to witness claim C1. -/
def witnessSpec : Spec := ⟨"w", [⟨1, "_", w1Field⟩, ⟨2, "-", w2Field⟩]⟩

/-!
Batch protocol: the flatten/unflatten pair.

flatten2dArray is translated from
src/resources/apps_script/validator/Code.js (lines 111-121); its cells are
kept as Option String so that a JavaScript null cell is representable: the
source pushes one unit for every cell, with no null check.
validationDataToDict and unflatten2dArray are translated from
src/unnamed/part_003 (lines 300-310 and 338-358): there the cell values
are strings (the source calls toString(), the identity on strings).
JavaScript arrays are sparse: writing at an index beyond the current
length leaves undefined holes, so the reassembled grid is a list of
optional rows of optional cells, and assignment pads with none.
-/

/-- One addressed cell of a batch validation request, as built by
validationDataToDict: value, 0-based row, 0-based column. -/
structure ValidationUnit where
  value : String
  row : Nat
  column : Nat
deriving Repr, DecidableEq

/-- One addressed cell as built by Code.js flatten2dArray, which copies the
cell value verbatim, nulls included. -/
structure RawUnit where
  value : Option String
  row : Nat
  column : Nat
deriving Repr, DecidableEq

/-- One element of an update request payload, as built by
updaterDataToDict: 0-based row, stringified key and stringified new
value. -/
structure UpdateUnit where
  row : Nat
  key : String
  new_value : String
deriving Repr, DecidableEq

/-- One element of an update response: the update engine answers each unit
with a response string. -/
structure UpdateResult where
  row : Nat
  key : String
  response : String
deriving Repr, DecidableEq

/-- Inner loop of validationDataToDict (src/unnamed/part_003): one unit per
cell of the row, columns counted from c. -/
def validationRowUnits (r : Nat) : List String → Nat → List ValidationUnit
  | [], _ => []
  | v :: vs, c => ⟨v, r, c⟩ :: validationRowUnits r vs (c + 1)

/-- Outer loop of validationDataToDict: rows counted from r. -/
def validationGridUnits : List (List String) → Nat → List ValidationUnit
  | [], _ => []
  | row :: rows, r => validationRowUnits r row 0 ++ validationGridUnits rows (r + 1)

/-- Translation of validationDataToDict (src/unnamed/part_003, lines
300-310): flattens the 2d array into a 1d array of value/row/column
elements; toString() on a string cell is the identity. -/
def validationDataToDict (values : List (List String)) : List ValidationUnit :=
  validationGridUnits values 0

/-- Inner loop of flatten2dArray (Code.js): one unit per cell, the value
copied verbatim. -/
def rawRowUnits (r : Nat) : List (Option String) → Nat → List RawUnit
  | [], _ => []
  | v :: vs, c => ⟨v, r, c⟩ :: rawRowUnits r vs (c + 1)

/-- Outer loop of flatten2dArray (Code.js). -/
def rawGridUnits : List (List (Option String)) → Nat → List RawUnit
  | [], _ => []
  | row :: rows, r => rawRowUnits r row 0 ++ rawGridUnits rows (r + 1)

/-- Translation of flatten2dArray
(src/resources/apps_script/validator/Code.js, lines 111-121): flattens the
2d array into a 1d array of value/row/column elements, one per cell, with
no null filtering. -/
def flatten2dArray (values : List (List (Option String))) : List RawUnit :=
  rawGridUnits values 0

/-- The enumeration claim C6 describes, written independently of the
source loops: for each 0-based row index in order, for each 0-based column
index in order, the unit carrying that cell's value and coordinates. -/
def rowMajorUnits (values : List (List (Option String))) : List RawUnit :=
  ((List.range values.length).map fun r =>
    (List.range (values.getD r []).length).map fun c =>
      (⟨(values.getD r []).getD c none, r, c⟩ : RawUnit)).flatten

/-- JavaScript sparse-array write a[i] = v: pads with undefined up to index
i when the array is shorter, then stores the value. -/
def jsSet (a : List (Option α)) (i : Nat) (v : α) : List (Option α) :=
  (a ++ List.replicate (i + 1 - a.length) none).set i (some v)

/-- JavaScript array read a[i]: undefined when the index is out of
range. -/
def jsGet (a : List (Option α)) (i : Nat) : Option α :=
  a.getD i none

/-- Translation of unflatten2dArray (src/unnamed/part_003, lines 338-358):
rebuilds a 2d array from addressed results, reading the requested response
field of each result (modelled as the selector field, with the row and
column properties as rowOf and colOf).  A row not seen yet starts as [];
both branches of the source's empty-string test store the field's value.
The source falls back to the column key '0' for a result without a column
property (an UpdateResult); JavaScript canonicalizes the array key '0' to
index 0, so that fallback is modelled by instantiating colOf with the
constant 0. -/
def unflattenStep (field : α → String) (rowOf colOf : α → Nat)
    (output : List (Option (List (Option String)))) (u : α) :
    List (Option (List (Option String))) :=
  let rowArr := (jsGet output (rowOf u)).getD []
  let v := if field u = "" then "" else field u
  jsSet output (rowOf u) (jsSet rowArr (colOf u) v)

def unflatten2dArray (values : List α) (field : α → String) (rowOf colOf : α → Nat) :
    List (Option (List (Option String))) :=
  values.foldl (unflattenStep field rowOf colOf) []

/-- The unflatten step instantiated the way claim C4 reads results back:
the field written by validationDataToDict is value, addressed by row and
column. -/
def valueStep : List (Option (List (Option String))) → ValidationUnit →
    List (Option (List (Option String))) :=
  unflattenStep (fun u => u.value) (fun u => u.row) (fun u => u.column)

/-- The unflatten step instantiated the way updateNamesInCells builds the
note grid (src/unnamed/part_003, line 221): the response field, addressed
by row, with the source's column fallback '0' since an UpdateResult
carries no column property. -/
def responseStep : List (Option (List (Option String))) → UpdateResult →
    List (Option (List (Option String))) :=
  unflattenStep (fun r => r.response) (fun r => r.row) (fun _ => 0)

/-- The dense embedding of a rectangular grid into the sparse-array result
type of unflatten2dArray: every row and every cell present. -/
def denseGrid (g : List (List String)) : List (Option (List (Option String))) :=
  g.map fun row => some (row.map fun v => some v)

/-!
Update engine (src/unnamed/part_003): checkUpdateRange, updaterDataToDict
and the fail-fast control flow of updateNamesInCells.  A spreadsheet cell
value is modelled as either a string or an integer-valued number, the two
kinds the claims exercise; Number.isInteger is true only for the latter.
A Range carries its column count (Range.getNumColumns) and its values.
-/

/-- A spreadsheet cell value: a string or an integer-valued number. -/
inductive CellValue where
  | str (s : String)
  | int (n : Int)
deriving Repr, DecidableEq

/-- JavaScript Number.isInteger: true for integer-valued numbers, false
for strings and for undefined (an out-of-range read). -/
def numberIsInteger : Option CellValue → Bool
  | some (CellValue.int _) => true
  | _ => false

/-- JavaScript toString on a cell value (String(undefined) for an
out-of-range read; that case is never exercised once checkUpdateRange has
passed on a two-column range). -/
def cellToString : Option CellValue → String
  | some (CellValue.str s) => s
  | some (CellValue.int n) => toString n
  | none => "undefined"

/-- A selection range: its column count and its cell values. -/
structure RangeData where
  numColumns : Nat
  values : List (List CellValue)
deriving Repr, DecidableEq

/-- Translation of checkUpdateRange (src/unnamed/part_003, lines 233-236):
the range must have exactly 2 columns and no value in the first column may
fail Number.isInteger. -/
def checkUpdateRange (range : RangeData) : Bool :=
  (range.numColumns == 2)
    && !(range.values.any fun row => !(numberIsInteger (row.get? 0)))

/-- Loop of updaterDataToDict: rows counted from r. -/
def updaterRowsToDict : List (List CellValue) → Nat → List UpdateUnit
  | [], _ => []
  | row :: rows, r =>
    ⟨r, cellToString (row.get? 0), cellToString (row.get? 1)⟩ :: updaterRowsToDict rows (r + 1)

/-- Translation of updaterDataToDict (src/unnamed/part_003, lines
320-328): one unit per row with the stringified first and second cells. -/
def updaterDataToDict (values : List (List CellValue)) : List UpdateUnit :=
  updaterRowsToDict values 0

/-- Outcome of updateNamesInCells before any response handling: either the
blocking range-error card (no network call) or the submitted update
units. -/
inductive UpdateFlow where
  | blocked
  | submitted (units : List UpdateUnit)
deriving Repr, DecidableEq

/-- Translation of the fail-fast control flow of updateNamesInCells
(src/unnamed/part_003, lines 197-219): when checkUpdateRange fails, the
blocking message card is returned before any network call; otherwise the
update units are built from the range values and submitted. -/
def updateNamesInCells (range : RangeData) : UpdateFlow :=
  if !(checkUpdateRange range) then
    UpdateFlow.blocked
  else
    UpdateFlow.submitted (updaterDataToDict range.values)

/-- Decimal digit test used to state integer parseability. -/
def isDigitChar (c : Char) : Bool :=
  "0123456789".data.contains c

/-- Claim C5's precondition on a key cell as the spec words it: the value
is parseable as an integer key (a decimal numeral with optional sign
parses; an integer-valued number is already an integer). -/
def parseableAsIntegerKey : CellValue → Bool
  | CellValue.str s =>
    match s.data with
    | [] => false
    | '-' :: cs => !cs.isEmpty && cs.all isDigitChar
    | cs => cs.all isDigitChar
  | CellValue.int _ => true

/-- The literal success marker for update responses
(src/unnamed/part_003, line 26). -/
def updateSuccessResponseSuffix : String := "Updated."

/-- The failure test applied to each update response
(src/unnamed/part_003, line 224): anything other than the literal success
marker is a failure. -/
def updateFailureTest (rs : String) : Bool :=
  rs != updateSuccessResponseSuffix

/-- The widget text built by formatFailureMessages
(src/unnamed/part_003, lines 247-249) for one failing result: the id field
and the response field are interpolated verbatim. -/
def failureWidgetText (idField responseField : String) : String :=
  "<b><font color=\"#770000\">" ++ idField ++ "</font></b><br><font color=\"#000000\">"
    ++ responseField ++ "</font></br>"

/-- Translation of the failure-collection loop of formatFailureMessages
(src/unnamed/part_003, lines 244-251), specialised to the update flow
(id field key, response field response): one widget per failing result, in
order. -/
def formatFailureMessages (results : List UpdateResult) : List String :=
  results.filterMap fun r =>
    if updateFailureTest r.response then some (failureWidgetText r.key r.response) else none

/-!
Transport: submitRequest (src/unnamed/part_003, lines 373-448), modelled
on its live configuration path (FLAGS.SUBMIT_REQUESTS = true, cf.
src/unnamed/part_004).  The n-th fetch attempt either returns a response
or throws a transport exception; the loop body is translated statement by
statement, including the dead rethrow guard and the backoff sleep
(2^n seconds plus a random jitter of at most one second, in
milliseconds). -/

/-- NUM_RETRIES (src/unnamed/part_003, line 27). -/
def NUM_RETRIES : Nat := 3

/-- An HTTP response as submitRequest consumes it: getResponseCode and
getContentText. -/
structure HttpResponse where
  code : Nat
  content : String
deriving Repr, DecidableEq

/-- Outcome of one UrlFetchApp.fetch call: a response, or a thrown
transport exception. -/
inductive FetchOutcome where
  | ok (resp : HttpResponse)
  | err (e : String)
deriving Repr, DecidableEq

/-- How the retry loop of submitRequest can end: a fetched response (with
the sleeps performed so far, in milliseconds), a rethrown transport
exception from the dead guard, or falling out of the loop with the
response variable still undefined. -/
inductive LoopResult where
  | success (resp : HttpResponse) (sleeps : List Nat)
  | thrown (e : String) (sleeps : List Nat)
  | fellThrough (sleeps : List Nat)
deriving Repr, DecidableEq

/-- The retry loop of submitRequest (src/unnamed/part_003, lines 417-427),
with fuel counting the iterations the loop condition n < NUM_RETRIES still
allows: try the n-th fetch and break on success; on an exception, rethrow
when n equals NUM_RETRIES (the dead guard), otherwise sleep
2^n * 1000 + jitter n milliseconds and continue. -/
def fetchLoopAux (attempts : Nat → FetchOutcome) (jitter : Nat → Nat) :
    Nat → Nat → List Nat → LoopResult
  | 0, _, sleeps => LoopResult.fellThrough sleeps
  | fuel + 1, n, sleeps =>
    match attempts n with
    | FetchOutcome.ok r => LoopResult.success r sleeps
    | FetchOutcome.err e =>
      if n = NUM_RETRIES then
        LoopResult.thrown e sleeps
      else
        fetchLoopAux attempts jitter fuel (n + 1) (sleeps ++ [2 ^ n * 1000 + jitter n])

/-- The retry loop started at n = 0 with NUM_RETRIES iterations
available. -/
def fetchLoop (attempts : Nat → FetchOutcome) (jitter : Nat → Nat) : LoopResult :=
  fetchLoopAux attempts jitter NUM_RETRIES 0 []

/-- How submitRequest returns to its caller. -/
inductive SubmitResult where
  | parsed (content : String)
  | httpError (code : Nat) (content : String)
  | transportThrown (e : String)
  | undefinedResponseError
deriving Repr, DecidableEq

/-- Translation of the post-loop tail of submitRequest
(src/unnamed/part_003, lines 441-448) composed with the retry loop: a
fetched response with code other than 200 throws the formatted request
error, a 200 response is parsed and returned, and when the loop fell
through the response variable is undefined, so touching
response.getResponseCode() raises a TypeError rather than the last
transport error. -/
def submitRequest (attempts : Nat → FetchOutcome) (jitter : Nat → Nat) : SubmitResult :=
  match fetchLoop attempts jitter with
  | LoopResult.success r _ =>
    if r.code != 200 then SubmitResult.httpError r.code r.content
    else SubmitResult.parsed r.content
  | LoopResult.thrown e _ => SubmitResult.transportThrown e
  | LoopResult.fellThrough _ => SubmitResult.undefinedResponseError

/-! Helper lemmas. -/

theorem string_append_ne_empty (s t : String) (h : s ≠ "") : s ++ t ≠ "" := by
  intro hc
  apply h
  have hd := congrArg String.data hc
  rw [String.data_append] at hd
  exact String.ext (List.append_eq_nil.mp hd).1

/-! Claims C8, C3, C9, C10. -/

/-- C8: for the US Advertisers Display 2022 spec, the candidate name with
an empty but present fandom segment between two consecutive delimiters
yields exactly the invalid-value message for position 3: the extracted
empty segment is not NULL, so it is tested against the dictionary and
fails membership instead of being reported as missing. -/
theorem validate_empty_present_segment_invalid :
    validate usAdvertisersDisplay2022 "2022q2_music__musicmarketing_nongenzbts"
      = "Invalid value \"\" in position 3 (field \"fandom\")." := by
  decide

/-- C3 (divergence evidence): when every one of the three fetch attempts
throws a transport exception, the retry loop performs the three backoff
sleeps (2^n seconds plus jitter, here zero) but exits without rethrowing
the last transport error, and submitRequest then hits the undefined
response variable instead of surfacing that error. -/
theorem all_attempts_fail_not_rethrown :
    fetchLoop (fun _ => FetchOutcome.err "transport failure") (fun _ => 0)
        = LoopResult.fellThrough [1000, 2000, 4000] ∧
      submitRequest (fun _ => FetchOutcome.err "transport failure") (fun _ => 0)
        = SubmitResult.undefinedResponseError := by
  decide

/-- C9: whenever the retry loop obtains a fetched response, submitRequest
throws the formatted request error exactly when the status code differs
from 200, and parses and returns the body only for an exact 200. -/
theorem fetched_response_throws_iff_not_200
    (attempts : Nat → FetchOutcome) (jitter : Nat → Nat)
    (r : HttpResponse) (s : List Nat)
    (h : fetchLoop attempts jitter = LoopResult.success r s) :
    (submitRequest attempts jitter = SubmitResult.parsed r.content ↔ r.code = 200) ∧
      (r.code ≠ 200 →
        submitRequest attempts jitter = SubmitResult.httpError r.code r.content) := by
  unfold submitRequest
  rw [h]
  by_cases hc : r.code = 200 <;> simp [hc]

/-- C9 witness: a 201 Created response is surfaced as a failure, not
parsed. -/
theorem fetched_response_throws_iff_not_200_witness :
    submitRequest (fun _ => FetchOutcome.ok ⟨201, "Created"⟩) (fun _ => 0)
      = SubmitResult.httpError 201 "Created" :=
  (fetched_response_throws_iff_not_200
    (fun _ => FetchOutcome.ok ⟨201, "Created"⟩) (fun _ => 0)
    ⟨201, "Created"⟩ [] (by decide)).2 (by decide)

/-- C10: the rethrow guard inside the retry loop is unreachable (the loop
never ends in a rethrow, for any transport behaviour), and when every
allowed attempt throws, the loop falls through so submitRequest proceeds
with the response variable undefined. -/
theorem rethrow_guard_unreachable (attempts : Nat → FetchOutcome) (jitter : Nat → Nat) :
    (∀ e s, fetchLoop attempts jitter ≠ LoopResult.thrown e s) ∧
      ((∀ n, n < NUM_RETRIES → ∃ e, attempts n = FetchOutcome.err e) →
        submitRequest attempts jitter = SubmitResult.undefinedResponseError) := by
  constructor
  · intro e s hc
    rcases h0 : attempts 0 with r0 | e0 <;>
      rcases h1 : attempts 1 with r1 | e1 <;>
        rcases h2 : attempts 2 with r2 | e2 <;>
          simp [fetchLoop, fetchLoopAux, NUM_RETRIES, h0, h1, h2] at hc
  · intro h
    obtain ⟨e0, h0⟩ := h 0 (by decide)
    obtain ⟨e1, h1⟩ := h 1 (by decide)
    obtain ⟨e2, h2⟩ := h 2 (by decide)
    simp [submitRequest, fetchLoop, fetchLoopAux, NUM_RETRIES, h0, h1, h2]

/-- C10 witness: with every attempt throwing, submitRequest ends at the
undefined response variable rather than rethrowing. -/
theorem rethrow_guard_unreachable_witness :
    submitRequest (fun _ => FetchOutcome.err "boom") (fun _ => 0)
      = SubmitResult.undefinedResponseError :=
  (rethrow_guard_unreachable (fun _ => FetchOutcome.err "boom") (fun _ => 0)).2
    (fun _ _ => ⟨"boom", rfl⟩)

/-! Claim C5: fail-fast contract of the bulk update. -/

theorem checkUpdateRange_iff (range : RangeData) :
    checkUpdateRange range = true ↔
      (range.numColumns = 2 ∧ ∀ row ∈ range.values, numberIsInteger (row.get? 0) = true) := by
  simp [checkUpdateRange, List.any_eq_true]

/-- C5 (amended): the bulk update fails fast with the blocking range-error
message and no network call exactly when the grid does not have 2 columns
or some first-column value fails Number.isInteger (which rejects string
representations of integers); when the check passes, the update units are
built from the grid and submitted. -/
theorem update_fails_fast_iff (range : RangeData) :
    (updateNamesInCells range = UpdateFlow.blocked ↔
      ¬(range.numColumns = 2 ∧ ∀ row ∈ range.values, numberIsInteger (row.get? 0) = true)) ∧
      ((range.numColumns = 2 ∧ ∀ row ∈ range.values, numberIsInteger (row.get? 0) = true) →
        updateNamesInCells range = UpdateFlow.submitted (updaterDataToDict range.values)) := by
  constructor
  · by_cases hc : checkUpdateRange range = true
    · rw [← checkUpdateRange_iff]
      simp [updateNamesInCells, hc]
    · rw [← checkUpdateRange_iff]
      simp [updateNamesInCells, hc]
  · intro h
    have hc := (checkUpdateRange_iff range).mpr h
    simp [updateNamesInCells, hc]

/-- C5 witness: a grid meeting the precondition is not blocked and its
units are built row by row. -/
theorem update_fails_fast_iff_witness :
    updateNamesInCells ⟨2, [[CellValue.int 3, CellValue.str "x"]]⟩
      = UpdateFlow.submitted [⟨0, "3", "x"⟩] :=
  ((update_fails_fast_iff ⟨2, [[CellValue.int 3, CellValue.str "x"]]⟩).2
    (by decide)).trans (by decide)

/-- C5 counterexample: the string "3" is parseable as an integer key in
the claim's sense, yet a two-column grid carrying it in column 0 is
blocked before any network call, because Number.isInteger rejects
strings. -/
theorem update_fails_fast_iff_counterexample :
    parseableAsIntegerKey (CellValue.str "3") = true ∧
      (⟨2, [[CellValue.str "3", CellValue.str "x"]]⟩ : RangeData).numColumns = 2 ∧
      updateNamesInCells ⟨2, [[CellValue.str "3", CellValue.str "x"]]⟩
        = UpdateFlow.blocked := by
  decide

/-! Claim C6: flatten2dArray enumerates every cell in row-major order. -/

theorem rawRowUnits_eq (r : Nat) (vals : List (Option String)) :
    ∀ c0 : Nat, rawRowUnits r vals c0
      = (List.range vals.length).map fun c => (⟨vals.getD c none, r, c0 + c⟩ : RawUnit) := by
  induction vals with
  | nil => intro c0; rfl
  | cons v vs ih =>
    intro c0
    rw [rawRowUnits, List.length_cons, List.range_succ_eq_map, List.map_cons, List.map_map,
      ih (c0 + 1)]
    congr 1
    apply List.map_congr_left
    intro c _
    simp only [Function.comp_apply, List.getD_cons_succ]
    have harith : c0 + 1 + c = c0 + (c + 1) := by omega
    rw [harith]

theorem rawGridUnits_eq (rows : List (List (Option String))) :
    ∀ r0 : Nat, rawGridUnits rows r0
      = ((List.range rows.length).map fun r =>
          (List.range (rows.getD r []).length).map fun c =>
            (⟨(rows.getD r []).getD c none, r0 + r, c⟩ : RawUnit)).flatten := by
  induction rows with
  | nil => intro r0; rfl
  | cons row rows ih =>
    intro r0
    rw [rawGridUnits, List.length_cons, List.range_succ_eq_map, List.map_cons, List.map_map,
      List.flatten_cons, ih (r0 + 1)]
    congr 1
    · rw [rawRowUnits_eq]
      simp
    · apply congrArg List.flatten
      apply List.map_congr_left
      intro r _
      simp only [Function.comp_apply, List.getD_cons_succ]
      apply List.map_congr_left
      intro c _
      have harith : r0 + 1 + r = r0 + (r + 1) := by omega
      rw [harith]

/-- C6 (amended): flatten2dArray emits exactly one unit per cell, null
cells included, carrying the cell's value verbatim and its 0-based
coordinates, and the output enumerates the cells in row-major order. -/
theorem flatten_is_row_major (values : List (List (Option String))) :
    flatten2dArray values = rowMajorUnits values := by
  rw [flatten2dArray, rowMajorUnits, rawGridUnits_eq]
  simp only [Nat.zero_add]

/-- C6 counterexample: a grid whose only cell is null has no non-null
cell, yet flatten2dArray still emits one unit for it. -/
theorem flatten_is_row_major_counterexample :
    flatten2dArray [[none]] = [⟨none, 0, 0⟩] ∧ flatten2dArray [[none]] ≠ [] := by
  decide

/-! Claim C4: the flatten/unflatten round trip. -/

theorem jsSet_append (a : List (Option α)) (v : α) :
    jsSet a a.length v = a ++ [some v] := by
  unfold jsSet
  have h1 : a.length + 1 - a.length = 1 := by omega
  rw [h1, List.replicate_succ, List.replicate_zero]
  rw [List.set_append_right _ _ (Nat.le_refl _)]
  simp

theorem jsSet_last (front : List (Option α)) (x : Option α) (v : α) :
    jsSet (front ++ [x]) front.length v = front ++ [some v] := by
  unfold jsSet
  have h1 : front.length + 1 - (front ++ [x]).length = 0 := by simp
  rw [h1, List.replicate_zero, List.append_nil]
  rw [List.set_append_right _ _ (Nat.le_refl _)]
  simp

theorem jsGet_last (front : List (Option α)) (x : Option α) :
    jsGet (front ++ [x]) front.length = x := by
  simp [jsGet, List.getD]

theorem jsGet_out (a : List (Option α)) (i : Nat) (h : a.length ≤ i) :
    jsGet a i = none := by
  simp [jsGet, List.getD, List.getElem?_eq_none h]

theorem fold_row (vs : List String) :
    ∀ (front : List (Option (List (Option String)))) (arr : List (Option String)) (r : Nat),
      front.length = r →
      List.foldl valueStep (front ++ [some arr]) (validationRowUnits r vs arr.length)
        = front ++ [some (arr ++ vs.map some)] := by
  induction vs with
  | nil =>
    intro front arr r _
    simp [validationRowUnits]
  | cons v vs ih =>
    intro front arr r hf
    rw [validationRowUnits, List.foldl_cons]
    have hv : (if v = "" then "" else v) = v := by
      by_cases h : v = "" <;> simp [h]
    have hstep : valueStep (front ++ [some arr]) ⟨v, r, arr.length⟩
        = front ++ [some (arr ++ [some v])] := by
      unfold valueStep unflattenStep
      simp only [← hf, jsGet_last, Option.getD_some, hv, jsSet_append, jsSet_last]
    rw [hstep]
    have hlen : (arr ++ [some v]).length = arr.length + 1 := by simp
    rw [← hlen, ih front (arr ++ [some v]) r hf]
    simp

theorem fold_row_start (vs : List String)
    (out : List (Option (List (Option String)))) (r : Nat)
    (h : out.length = r) (hne : vs ≠ []) :
    List.foldl valueStep out (validationRowUnits r vs 0) = out ++ [some (vs.map some)] := by
  cases vs with
  | nil => exact absurd rfl hne
  | cons v vs =>
    rw [validationRowUnits, List.foldl_cons]
    have hv : (if v = "" then "" else v) = v := by
      by_cases hh : v = "" <;> simp [hh]
    have h0 : jsSet ([] : List (Option String)) 0 v = [some v] := by
      have := jsSet_append ([] : List (Option String)) v
      simpa using this
    have hstep : valueStep out ⟨v, r, 0⟩ = out ++ [some [some v]] := by
      unfold valueStep unflattenStep
      simp only [← h, jsGet_out out out.length (Nat.le_refl _), Option.getD_none, hv, h0,
        jsSet_append]
    rw [hstep]
    simpa using fold_row vs out [some v] r h

theorem fold_grid (rows : List (List String)) :
    ∀ (out : List (Option (List (Option String)))) (r0 : Nat),
      out.length = r0 → (∀ row ∈ rows, row ≠ []) →
      List.foldl valueStep out (validationGridUnits rows r0) = out ++ denseGrid rows := by
  induction rows with
  | nil =>
    intro out r0 _ _
    simp [validationGridUnits, denseGrid]
  | cons row rows ih =>
    intro out r0 hlen hne
    rw [validationGridUnits, List.foldl_append]
    rw [fold_row_start row out r0 hlen (hne row (by simp))]
    rw [ih (out ++ [some (row.map some)]) (r0 + 1) (by simp [hlen])
      (fun q hq => hne q (by simp [hq]))]
    simp [denseGrid]

/-- C4 (amended): unflattening the flattened grid, reading back the value
field that was written, reconstructs the dense embedding of the original
grid, for every rectangular grid of non-null strings with at least one
column; a zero-width row leaves a hole instead. -/
theorem unflatten_flatten_round_trip (g : List (List String)) (w : Nat) (hw : 0 < w)
    (hrect : ∀ row ∈ g, row.length = w) :
    unflatten2dArray (validationDataToDict g)
        (fun u => u.value) (fun u => u.row) (fun u => u.column)
      = denseGrid g := by
  have hne : ∀ row ∈ g, row ≠ [] := by
    intro row hr hnil
    have hl := hrect row hr
    rw [hnil] at hl
    simp at hl
    omega
  have h := fold_grid g [] 0 rfl hne
  simpa [unflatten2dArray, validationDataToDict, valueStep] using h

/-- C4 witness: the round trip on a concrete 2 by 2 grid. -/
theorem unflatten_flatten_round_trip_witness :
    unflatten2dArray (validationDataToDict [["a", "b"], ["c", "d"]])
        (fun u => u.value) (fun u => u.row) (fun u => u.column)
      = denseGrid [["a", "b"], ["c", "d"]] :=
  unflatten_flatten_round_trip [["a", "b"], ["c", "d"]] 2 (by decide) (by decide)

/-- C4 counterexample: a rectangular grid consisting of one zero-width row
does not survive the round trip: flattening emits no unit, so unflattening
rebuilds the empty grid rather than the original. -/
theorem unflatten_flatten_round_trip_counterexample :
    unflatten2dArray (validationDataToDict [([] : List String)])
        (fun u => u.value) (fun u => u.row) (fun u => u.column) = []
      ∧ ([] : List (Option (List (Option String)))) ≠ denseGrid [[]] := by
  constructor
  · rfl
  · decide

/-! Claim C7: success classification, failure listing and note grid. -/

theorem fold_update_notes :
    ∀ (results : List UpdateResult) (out : List (Option (List (Option String)))),
      results.map UpdateResult.row = List.range' out.length results.length →
      List.foldl responseStep out results
        = out ++ results.map fun r => some [some r.response] := by
  intro results
  induction results with
  | nil =>
    intro out _
    simp
  | cons r rs ih =>
    intro out h
    rw [List.map_cons, List.length_cons, List.range'_succ out.length rs.length 1] at h
    simp only [List.cons.injEq] at h
    rw [List.foldl_cons]
    have hv : (if r.response = "" then "" else r.response) = r.response := by
      by_cases hh : r.response = "" <;> simp [hh]
    have h0 : jsSet ([] : List (Option String)) 0 r.response = [some r.response] := by
      simpa using jsSet_append ([] : List (Option String)) r.response
    have hstep : responseStep out r = out ++ [some [some r.response]] := by
      unfold responseStep unflattenStep
      simp only [h.1]
      simp only [jsGet_out out out.length (Nat.le_refl _), Option.getD_none, hv, h0,
        jsSet_append]
    have hlen : (out ++ [some [some r.response]]).length = out.length + 1 := by simp
    rw [hstep, ih (out ++ [some [some r.response]]) (by rw [hlen]; exact h.2)]
    simp

/-- C7: a unit's outcome is a success exactly when its response equals the
literal string Updated.; every other response string is surfaced verbatim
in the failure listing, paired with the unit's key, in order; and the note
grid that updateNamesInCells writes back through setNotes (the results
unflattened on the response field, one result per row in order, as the
update protocol returns them) carries every response string verbatim as
the note of its unit's cell. -/
theorem update_success_iff_literal :
    (∀ rs : String, updateFailureTest rs = false ↔ rs = "Updated.") ∧
    (∀ results : List UpdateResult,
      formatFailureMessages results =
        (results.filter fun r => r.response != "Updated.").map
          fun r => failureWidgetText r.key r.response) ∧
    (∀ results : List UpdateResult,
      results.map UpdateResult.row = List.range results.length →
      unflatten2dArray results (fun r => r.response) (fun r => r.row) (fun _ => 0)
        = results.map fun r => some [some r.response]) := by
  refine ⟨?_, ?_, ?_⟩
  · intro rs
    simp [updateFailureTest, updateSuccessResponseSuffix]
  · intro results
    induction results with
    | nil => rfl
    | cons r rs ih =>
      by_cases h : r.response = "Updated."
      · simp [formatFailureMessages, List.filterMap_cons, List.filter_cons,
          updateFailureTest, updateSuccessResponseSuffix, h] at ih ⊢
        exact ih
      · simp [formatFailureMessages, List.filterMap_cons, List.filter_cons,
          updateFailureTest, updateSuccessResponseSuffix, h] at ih ⊢
        exact ih
  · intro results h
    have hfold := fold_update_notes results []
      (by simpa [List.range_eq_range'] using h)
    simpa [unflatten2dArray, responseStep] using hfold

/-- C7 witness: the note grid for a concrete pair of one failing and one
succeeding result carries both response strings verbatim at their rows. -/
theorem update_success_iff_literal_witness :
    unflatten2dArray [(⟨0, "7", "boom"⟩ : UpdateResult), ⟨1, "8", "Updated."⟩]
        (fun r => r.response) (fun r => r.row) (fun _ => 0)
      = [(⟨0, "7", "boom"⟩ : UpdateResult), ⟨1, "8", "Updated."⟩].map
          fun r => some [some r.response] :=
  update_success_iff_literal.2.2 [⟨0, "7", "boom"⟩, ⟨1, "8", "Updated."⟩] (by decide)

/-! Claim C2: the structure of the per-name diagnostic. -/

theorem specPositionMessage_rel (d : Dimension) (seg : Option String) :
    (dimValidation d seg = none ∧ specPositionMessage d seg = "") ∨
      (dimValidation d seg = some (specPositionMessage d seg)
        ∧ specPositionMessage d seg ≠ "") := by
  cases seg with
  | none =>
    right
    exact ⟨rfl, string_append_ne_empty _ _ (string_append_ne_empty _ _ (by decide))⟩
  | some v =>
    by_cases hf : d.field_spec.is_freeform_text = true
    · left
      constructor <;> simp [dimValidation, specPositionMessage, hf]
    · have hf2 : d.field_spec.is_freeform_text = false := by simpa using hf
      by_cases hco : d.field_spec.dictionary.contains v = true
      · have hmem : v ∈ d.field_spec.dictionary := by simpa using hco
        left
        constructor <;> simp [dimValidation, specPositionMessage, hf2, hco, hmem]
      · have hco2 : d.field_spec.dictionary.contains v = false := by simpa using hco
        have hmem : v ∉ d.field_spec.dictionary := by simpa using hco2
        have hne : ("Invalid value \"" ++ v ++ "\" in position " ++ toString d.index
            ++ " (field \"" ++ d.field_spec.name ++ "\").") ≠ "" :=
          string_append_ne_empty _ _ (string_append_ne_empty _ _
            (string_append_ne_empty _ _ (string_append_ne_empty _ _
              (string_append_ne_empty _ _ (string_append_ne_empty _ _ (by decide))))))
        right
        constructor
        · simp [dimValidation, specPositionMessage, hf2, hco2, hmem]
        · simp [specPositionMessage, hf2, hco2, hmem, hne]

theorem msgs_eq (extra : Option String) :
    ∀ xs : List (Dimension × Option String),
      ((xs.map fun p => dimValidation p.1 p.2) ++ [extraDataValidation extra]).filterMap id
        = ((xs.map fun p => specPositionMessage p.1 p.2)
            ++ [specExtraMessage extra]).filter fun m => m != "" := by
  intro xs
  induction xs with
  | nil =>
    cases extra with
    | none => decide
    | some e =>
      by_cases he : e = ""
      · simp [extraDataValidation, specExtraMessage, he]
      · have hne : ("Unexpected data at end of string: \"" ++ e ++ "\".") ≠ "" :=
          string_append_ne_empty _ _ (string_append_ne_empty _ _ (by decide))
        simp [extraDataValidation, specExtraMessage, he, hne]
  | cons p xs ih =>
    rcases specPositionMessage_rel p.1 p.2 with ⟨h1, h2⟩ | ⟨h1, h2⟩
    · simp [List.filterMap_cons, List.filter_cons, h1, h2, ih]
    · simp [List.filterMap_cons, List.filter_cons, h1, h2, ih]

/-- C2: for every Spec (its dimensions listed in ascending position index
order) and every candidate name, the diagnostic produced by validate is
the newline-joined concatenation of the non-empty per-position messages
(the missing-value message for a missing segment, the invalid-value
message for a non-freeform segment outside the dictionary, no message
otherwise), in dimension order, with the extra-data message last; it is
empty exactly when no position and no remainder contributes a message. -/
theorem validate_message_structure (spec : Spec) (name : String)
    (_hsorted : spec.dimensions.Pairwise fun a b => a.index < b.index) :
    validate spec name =
      String.intercalate "\n"
        ((((spec.dimensions.zip (segmentName spec.dimensions name).1).map
              fun p => specPositionMessage p.1 p.2)
            ++ [specExtraMessage (segmentName spec.dimensions name).2]).filter
          fun m => m != "") := by
  unfold validate arrayToString
  exact congrArg (String.intercalate "\n") (msgs_eq _ _)

/-- C2 witness: the characterization at a concrete spec and name. -/
theorem validate_message_structure_witness :
    validate usAdvertisersDisplay2022 "2022q2_music" =
      String.intercalate "\n"
        ((((usAdvertisersDisplay2022.dimensions.zip
              (segmentName usAdvertisersDisplay2022.dimensions "2022q2_music").1).map
              fun p => specPositionMessage p.1 p.2)
            ++ [specExtraMessage
                (segmentName usAdvertisersDisplay2022.dimensions "2022q2_music").2]).filter
          fun m => m != "") :=
  validate_message_structure usAdvertisersDisplay2022 "2022q2_music" (by decide)

/-! Claim C1: a name built from one valid value per dimension validates
cleanly. -/

theorem findDelim_build (c : Char) (r : List Char) :
    ∀ v : List Char, c ∉ v → findDelim [c] (v ++ c :: r) = some (v, r) := by
  intro v
  induction v with
  | nil =>
    intro _
    simp [findDelim, List.isPrefixOf]
  | cons a v ih =>
    intro hc
    have hca : ¬(c = a) := fun h => hc (by simp [h])
    have hcv : c ∉ v := fun h => hc (by simp [h])
    rw [List.cons_append, findDelim]
    have hpre : ([c].isPrefixOf (a :: (v ++ c :: r))) = false := by
      simp [List.isPrefixOf, hca]
    rw [if_neg (by simp [hpre])]
    rw [ih hcv]

theorem splitFirst_build (delim v rest : String) (c : Char)
    (hd : delim.data = [c]) (hc : c ∉ v.data) :
    splitFirst delim (v ++ (delim ++ rest)) = some (v, rest) := by
  unfold splitFirst
  have hdata : (v ++ (delim ++ rest)).data = v.data ++ c :: rest.data := by
    rw [String.data_append, String.data_append, hd]
    rfl
  rw [hdata, hd, findDelim_build c rest.data v.data hc]

theorem segmentName_build :
    ∀ ps : List (Dimension × String), (∀ p ∈ ps, delimOK p) →
      (segmentName (ps.map Prod.fst) (buildName ps)).1 = ps.map (fun p => some p.2)
        ∧ ((segmentName (ps.map Prod.fst) (buildName ps)).2).getD "" = "" := by
  intro ps
  induction ps with
  | nil => intro _; exact ⟨rfl, rfl⟩
  | cons p ps ih =>
    intro h
    obtain ⟨hlen1, hnotin⟩ := h p (by simp)
    obtain ⟨c, hc⟩ : ∃ c, p.1.end_delimiter.data = [c] := by
      rcases hd : p.1.end_delimiter.data with _ | ⟨c, _ | ⟨d, t⟩⟩
      · rw [hd] at hlen1; simp at hlen1
      · exact ⟨c, rfl⟩
      · rw [hd] at hlen1; simp at hlen1
    have hcin : c ∉ p.2.data := hnotin c (by rw [hc]; simp)
    have hsplit := splitFirst_build p.1.end_delimiter p.2 (buildName ps) c hc hcin
    cases ps with
    | nil =>
      have hbn : buildName [p] = p.2 ++ (p.1.end_delimiter ++ "") := rfl
      have hsplit2 : splitFirst p.1.end_delimiter (p.2 ++ p.1.end_delimiter)
          = some (p.2, "") := by
        simpa [buildName] using hsplit
      constructor
      · show (segmentName [p.1] (buildName [p])).1 = [some p.2]
        rw [hbn]
        simp [segmentName, hsplit2]
      · show ((segmentName [p.1] (buildName [p])).2).getD "" = ""
        rw [hbn]
        simp [segmentName, hsplit2]
    | cons q qs =>
      obtain ⟨ih1, ih2⟩ := ih (fun x hx => h x (by simp [hx]))
      have hbn : buildName (p :: q :: qs)
          = p.2 ++ (p.1.end_delimiter ++ buildName (q :: qs)) := rfl
      have hmap : (p :: q :: qs).map Prod.fst = p.1 :: q.1 :: qs.map Prod.fst := rfl
      have hmap2 : (q :: qs).map Prod.fst = q.1 :: qs.map Prod.fst := rfl
      rw [hmap2] at ih1 ih2
      rw [hmap, hbn]
      constructor
      · show (segmentName (p.1 :: q.1 :: qs.map Prod.fst)
            (p.2 ++ (p.1.end_delimiter ++ buildName (q :: qs)))).1
          = (p :: q :: qs).map fun p => some p.2
        simp only [segmentName, hsplit, List.map_cons]
        rw [ih1]
        rfl
      · show ((segmentName (p.1 :: q.1 :: qs.map Prod.fst)
            (p.2 ++ (p.1.end_delimiter ++ buildName (q :: qs)))).2).getD "" = ""
        simp only [segmentName, hsplit]
        exact ih2

theorem dimValidation_valid (d : Dimension) (v : String) (h : validValue d v) :
    dimValidation d (some v) = none := by
  unfold validValue at h
  by_cases hf : d.field_spec.is_freeform_text = true
  · simp [dimValidation, hf]
  · rw [if_neg (by simpa using hf)] at h
    have hmem : v ∈ d.field_spec.dictionary := by simpa using h
    simp [dimValidation, hf, h, hmem]

/-- C1 (amended): for every Spec whose dimensions have contiguous 1..N
position indices and single-character end delimiters, and for every choice
of one valid value per dimension (a dictionary member for a controlled
field, any non-empty string for a freeform field) that does not contain
its dimension's delimiter character, the name formed by concatenating the
values in position order, each followed by its end delimiter and with no
trailing text, validates to the empty string. -/
theorem validate_built_name (spec : Spec) (vs : List String)
    (hlen : vs.length = spec.dimensions.length)
    (_hidx : spec.dimensions.map Dimension.index = List.range' 1 spec.dimensions.length)
    (hdelim : ∀ p ∈ spec.dimensions.zip vs, delimOK p)
    (hvalid : ∀ p ∈ spec.dimensions.zip vs, validValue p.1 p.2) :
    validate spec (buildName (spec.dimensions.zip vs)) = "" := by
  have hmap : (spec.dimensions.zip vs).map Prod.fst = spec.dimensions :=
    List.map_fst_zip _ _ (le_of_eq hlen.symm)
  obtain ⟨hseg1, hseg2⟩ := segmentName_build (spec.dimensions.zip vs) hdelim
  rw [hmap] at hseg1 hseg2
  simp only [validate, arrayToString]
  rw [hseg1]
  have hzip := List.zip_map' Prod.fst (fun p : Dimension × String => some p.2)
    (spec.dimensions.zip vs)
  rw [hmap] at hzip
  rw [hzip, List.map_map]
  have hnil : (((spec.dimensions.zip vs).map
        ((fun p : Dimension × Option String => dimValidation p.1 p.2)
          ∘ fun p : Dimension × String => (p.1, some p.2)))
      ++ [extraDataValidation (segmentName spec.dimensions
            (buildName (spec.dimensions.zip vs))).2]).filterMap id = [] := by
    rw [List.filterMap_eq_nil_iff]
    intro a ha
    rcases List.mem_append.mp ha with hin | hin
    · obtain ⟨p, hp, rfl⟩ := List.mem_map.mp hin
      exact dimValidation_valid p.1 p.2 (hvalid p hp)
    · rw [List.mem_singleton] at hin
      subst hin
      show extraDataValidation _ = none
      unfold extraDataValidation
      rw [if_neg]
      simp [hseg2]
  rw [hnil]
  rfl

/-- C1 witness: a concrete two-dimension spec and valid values. -/
theorem validate_built_name_witness :
    validate witnessSpec (buildName (witnessSpec.dimensions.zip ["aa", "bb"])) = "" :=
  validate_built_name witnessSpec ["aa", "bb"] (by decide) (by decide) (by decide) (by decide)

/-- C1 counterexample: a dictionary member that contains its dimension's
delimiter: the name built exactly as the claim prescribes (the member
followed by the delimiter, no trailing text, contiguous indices) does not
validate to the empty string, because splitting stops at the first
delimiter occurrence inside the value. -/
theorem validate_built_name_counterexample :
    cexSpec.dimensions.map Dimension.index = List.range' 1 cexSpec.dimensions.length
      ∧ cexField.dictionary.contains "a_b" = true
      ∧ buildName (cexSpec.dimensions.zip ["a_b"]) = "a_b_"
      ∧ validate cexSpec (buildName (cexSpec.dimensions.zip ["a_b"])) ≠ "" := by
  decide

end TaxonomyWizard
